import Mathlib

/-!
Verification development for `ssh_key_manager.py` (repository
`ssh_config_generator`).

The source is a single Python script.  We give a shallow embedding:

* `Yaml` models the values produced by `yaml.safe_load` (mappings restricted
  to string keys, which is what the program's input schema uses);
* `pyMem`, `pyGet`, `pyIter`, `pyStr` model the Python operations
  `k in v`, `v[k]`, `for x in v` and f-string conversion `str(v)`, including
  the `TypeError` / `KeyError` exceptions they raise;
* `FS` models the relevant filesystem state: the mode of the `~/.ssh`
  directory and a map from paths to file contents and modes;
* `generate_key_pair`, `update_ssh_config`, `process_accounts`,
  `ensure_ssh_directory` are direct translations of the methods of
  `SSHKeyManager` (source lines 18-115).  The RSA generation and the two
  serialization calls are foreign library calls; their outputs are supplied
  by an oracle `sup : Nat -> String × String` giving the serialized private
  and public bytes of the k-th generated key, and the arguments the source
  passes to those library calls are recorded in `generateKeyPairCalls`.
-/

/-- Values produced by `yaml.safe_load`.  Mapping keys are restricted to
strings, matching the program's input schema. -/
inductive Yaml where
  | null : Yaml
  | bool : Bool → Yaml
  | int : Int → Yaml
  | str : String → Yaml
  | list : List Yaml → Yaml
  | map : List (String × Yaml) → Yaml

/-- Python exceptions that the script can raise and does not catch. -/
inductive PyExc where
  | typeError : PyExc
  | keyError : String → PyExc
  | fileNotFound : PyExc
deriving DecidableEq, Repr

mutual

/-- Python `repr` of a `Yaml` value (as used when a dict is interpolated
into an f-string).  String escaping subtleties of `repr` are not modelled. -/
def pyRepr : Yaml → String
  | Yaml.null => "None"
  | Yaml.bool b => cond b "True" "False"
  | Yaml.int n => toString n
  | Yaml.str s => "\x27" ++ s ++ "\x27"
  | Yaml.list xs => "[" ++ pyReprList xs ++ "]"
  | Yaml.map kvs => "\x7b" ++ pyReprMap kvs ++ "\x7d"

/-- Comma-separated `repr`s of list elements. -/
def pyReprList : List Yaml → String
  | [] => ""
  | [x] => pyRepr x
  | x :: xs => pyRepr x ++ ", " ++ pyReprList xs

/-- Comma-separated `repr`s of dict entries. -/
def pyReprMap : List (String × Yaml) → String
  | [] => ""
  | [kv] => "\x27" ++ kv.1 ++ "\x27: " ++ pyRepr kv.2
  | kv :: kvs => "\x27" ++ kv.1 ++ "\x27: " ++ pyRepr kv.2 ++ ", " ++ pyReprMap kvs

end

/-- Python `str()` of a `Yaml` value, as performed by f-string interpolation. -/
def pyStr : Yaml → String
  | Yaml.str s => s
  | v => pyRepr v

/-- Substring occurrence test on character lists: `needle` occurs in the
list at some position (the empty needle occurs everywhere). -/
def hasSub (needle : List Char) : List Char → Bool
  | [] => needle.isEmpty
  | c :: t => needle.isPrefixOf (c :: t) || hasSub needle t

/-- Substring test, modelling Python `needle in haystack` for strings. -/
def strContains (hay needle : String) : Bool :=
  hasSub needle.data hay.data

/-- Equality test of a Python string against a `Yaml` value (used by `in`
on lists: `"k" == elem` is `True` only for an equal string element). -/
def yamlEqStr (k : String) : Yaml → Bool
  | Yaml.str s => s == k
  | _ => false

/-- Python membership `k in v` for a string `k`: key lookup on dicts,
element equality on lists, substring test on strings, `TypeError` on
non-iterable values (`None`, numbers, booleans). -/
def pyMem (k : String) : Yaml → Except PyExc Bool
  | Yaml.map kvs => .ok (kvs.lookup k).isSome
  | Yaml.list xs => .ok (xs.any (yamlEqStr k))
  | Yaml.str s => .ok (strContains s k)
  | Yaml.null => .error .typeError
  | Yaml.bool _ => .error .typeError
  | Yaml.int _ => .error .typeError

/-- Python subscription `v[k]` for a string key `k`: dict lookup
(`KeyError` when absent), `TypeError` on every other value (string and
list indices must be integers; other values are not subscriptable). -/
def pyGet (v : Yaml) (k : String) : Except PyExc Yaml :=
  match v with
  | Yaml.map kvs =>
    match kvs.lookup k with
    | some x => .ok x
    | none => .error (.keyError k)
  | _ => .error .typeError

/-- Python iteration `for x in v`: list elements, characters of a string,
keys of a dict, `TypeError` on non-iterable values. -/
def pyIter : Yaml → Except PyExc (List Yaml)
  | Yaml.list xs => .ok xs
  | Yaml.str s => .ok (s.toList.map (fun c => Yaml.str (String.singleton c)))
  | Yaml.map kvs => .ok (kvs.map (fun kv => Yaml.str kv.1))
  | Yaml.null => .error .typeError
  | Yaml.bool _ => .error .typeError
  | Yaml.int _ => .error .typeError

/-- Content and permission mode of one file. -/
structure FileData where
  content : String
  mode : Nat
deriving DecidableEq, Repr

/-- Filesystem state relevant to the script: the `~/.ssh` directory's mode
(`none` when the directory does not exist) and the files by absolute path. -/
structure FS where
  dirMode : Option Nat
  files : String → Option FileData

/-- Writing a file (Python `open(p, "w")` / `open(p, "wb")` followed by
`write`): truncates an existing file keeping its mode, or creates the file
with the default creation mode `0o644`. -/
def FS.write (fs : FS) (p c : String) : FS :=
  { fs with
    files := fun q =>
      if q = p then some ⟨c, ((fs.files p).map FileData.mode).getD 0o644⟩
      else fs.files q }

/-- Changing a file's mode (`os.chmod`).  Every `chmod` in the source
immediately follows a write of the same path, so the missing-file error
case is unreachable and the operation is modelled as total. -/
def FS.chmod (fs : FS) (p : String) (mo : Nat) : FS :=
  { fs with
    files := fun q =>
      match fs.files q with
      | some fd => if q = p then some ⟨fd.content, mo⟩ else some fd
      | none => none }

/-- Reading a file (`open(p, "r").read()`). -/
def readFile (fs : FS) (p : String) : Except PyExc String :=
  match fs.files p with
  | some fd => .ok fd.content
  | none => .error .fileNotFound

/-- Content of the file at `p`, if it exists. -/
def contentOf (fs : FS) (p : String) : Option String :=
  (fs.files p).map FileData.content

/-- Permission mode of the file at `p`, if it exists. -/
def modeOf (fs : FS) (p : String) : Option Nat :=
  (fs.files p).map FileData.mode

/-- The `SSHKeyManager` object: it only carries `self.ssh_dir`
(`Path.home() / ".ssh"` in the source, kept abstract here). -/
structure Manager where
  ssh_dir : String

/-- The `self.config_file` path (`self.ssh_dir / "config"`). -/
def Manager.config_file (m : Manager) : String :=
  m.ssh_dir ++ "/config"

/-- Path of the private key file for an account name (source line 50). -/
def privPath (m : Manager) (n : String) : String :=
  m.ssh_dir ++ "/id_rsa_" ++ n

/-- Path of the public key file for an account name (source line 56). -/
def pubPath (m : Manager) (n : String) : String :=
  privPath m n ++ ".pub"

/-- Method `ensure_ssh_directory` (source lines 18-24): create the
directory with mode `0o700` when absent, otherwise `chmod` it to `0o700`. -/
def ensure_ssh_directory (fs : FS) : FS :=
  if fs.dirMode.isNone then { fs with dirMode := some 0o700 }
  else { fs with dirMode := some 0o700 }

/-- Possible `Encoding` arguments of the `cryptography` serialization API. -/
inductive Encoding where
  | PEM : Encoding
  | DER : Encoding
  | OpenSSH : Encoding
deriving DecidableEq, Repr

/-- Possible `PrivateFormat` arguments of the serialization API. -/
inductive PrivateFormat where
  | PKCS8 : PrivateFormat
  | TraditionalOpenSSL : PrivateFormat
  | OpenSSH : PrivateFormat
deriving DecidableEq, Repr

/-- Possible `PublicFormat` arguments of the serialization API. -/
inductive PublicFormat where
  | OpenSSH : PublicFormat
  | SubjectPublicKeyInfo : PublicFormat
  | PKCS1 : PublicFormat
deriving DecidableEq, Repr

/-- Possible encryption-algorithm arguments of the serialization API. -/
inductive EncryptionAlgorithm where
  | NoEncryption : EncryptionAlgorithm
  | BestAvailableEncryption : EncryptionAlgorithm
deriving DecidableEq, Repr

/-- Arguments of `rsa.generate_private_key` (source lines 29-33). -/
structure RSAGenArgs where
  public_exponent : Nat
  key_size : Nat
deriving DecidableEq, Repr

/-- Arguments of `private_key.private_bytes` (source lines 36-40). -/
structure PrivateBytesArgs where
  encoding : Encoding
  format : PrivateFormat
  encryption_algorithm : EncryptionAlgorithm
deriving DecidableEq, Repr

/-- Arguments of `public_key.public_bytes` (source lines 44-47). -/
structure PublicBytesArgs where
  encoding : Encoding
  format : PublicFormat
deriving DecidableEq, Repr

/-- The three library calls `generate_key_pair` makes to produce the key
material, with the exact arguments of source lines 29-47. -/
def generateKeyPairCalls : RSAGenArgs × PrivateBytesArgs × PublicBytesArgs :=
  (⟨65537, 4096⟩, ⟨Encoding.PEM, PrivateFormat.PKCS8, EncryptionAlgorithm.NoEncryption⟩,
   ⟨Encoding.OpenSSH, PublicFormat.OpenSSH⟩)

/-- Method `generate_key_pair` (source lines 26-61).  `account_name` and
`email` are the raw values taken from the account record; `private_pem` and
`public_pem` are the serialized bytes returned by the library calls recorded
in `generateKeyPairCalls`.  Writes the private key, chmods it to `0o600`,
writes the public key, chmods it to `0o644`, and returns the public key
path.  The `email` parameter is not used. -/
def generate_key_pair (m : Manager) (account_name email : Yaml)
    (private_pem public_pem : String) (fs : FS) : FS × String :=
  let private_key_path := m.ssh_dir ++ "/id_rsa_" ++ pyStr account_name
  let fs1 := (fs.write private_key_path private_pem).chmod private_key_path 0o600
  let public_key_path := private_key_path ++ ".pub"
  let fs2 := (fs1.write public_key_path public_pem).chmod public_key_path 0o644
  (fs2, public_key_path)

/-- The host stanza string built for one account name (source lines 68-74,
an f-string that begins and ends with a newline). -/
def hostEntry (n : String) : String :=
  "\nHost github.com-" ++ n ++
  "\n    HostName github.com\n    User git\n    IdentityFile ~/.ssh/id_rsa_" ++ n ++
  "\n    IdentitiesOnly yes\n"

/-- The `config_lines` list of `update_ssh_config` (source lines 65-75):
one stanza per account, each obtained by subscripting the account with
`"name"`; the first failing subscription raises. -/
def stanzasE : List Yaml → Except PyExc (List String)
  | [] => .ok []
  | a :: rest =>
    match pyGet a "name" with
    | .error e => .error e
    | .ok v =>
      match stanzasE rest with
      | .error e => .error e
      | .ok xs => .ok (hostEntry (pyStr v) :: xs)

/-- The final write of `update_ssh_config` (source lines 78-80): write the
joined stanzas to `self.config_file` and chmod it to `0o600`. -/
def finalizeFS (m : Manager) (s : String) (fs : FS) : FS :=
  (fs.write m.config_file s).chmod m.config_file 0o600

/-- Method `update_ssh_config` (source lines 63-80). -/
def update_ssh_config (m : Manager) (accounts : List Yaml) (fs : FS) :
    Except PyExc FS :=
  match stanzasE accounts with
  | .error e => .error e
  | .ok lines => .ok (finalizeFS m (String.join lines) fs)

/-- Result of `open(config_path)` + `yaml.safe_load` (source lines 84-92):
the file may be missing, the YAML may fail to parse (with the message that
gets interpolated into the diagnostic), or a value is produced. -/
inductive ReadResult where
  | notFound : ReadResult
  | parseError : String → ReadResult
  | ok : Yaml → ReadResult

/-- How the `process_accounts` call ends: a controlled `sys.exit`, an
uncaught Python exception, or a normal return. -/
inductive Outcome where
  | exited : Nat → Outcome
  | raised : PyExc → Outcome
  | finished : Outcome
deriving DecidableEq, Repr

/-- Process exit status produced by each outcome (an uncaught exception
makes the interpreter exit with status 1 after printing a traceback). -/
def exitCode : Outcome → Nat
  | .exited c => c
  | .raised _ => 1
  | .finished => 0

/-- Diagnostic printed when the config file is missing (source line 88). -/
def fileNotFoundMsg (config_path : String) : String :=
  "Error: Config file \x27" ++ config_path ++ "\x27 not found."

/-- Diagnostic printed on a YAML parse failure (source line 91). -/
def yamlErrorMsg (e : String) : String :=
  "Error parsing YAML config: " ++ e

/-- Diagnostic printed when the `accounts` section is missing (line 95). -/
def noAccountsMsg : String :=
  "Error: No \x27accounts\x27 section found in config file."

/-- Message printed when an account record is skipped (source line 100). -/
def skipMsg (a : Yaml) : String :=
  "Error: Account configuration missing required fields: " ++ pyStr a

/-- Progress message of source line 103. -/
def procMsg (n : String) : String :=
  "\nProcessing account: " ++ n

/-- Progress message of source line 106. -/
def genMsg (n : String) : String :=
  "Generated SSH key pair for " ++ n

/-- Prompt of source line 107. -/
def addKeyMsg : String :=
  "\nAdd this public key to your GitHub account:"

/-- Success banner of source line 112. -/
def updatedMsg : String :=
  "\nSSH config has been updated successfully!"

/-- Heading of source line 113. -/
def urlsMsg : String :=
  "\nTo use different GitHub accounts, use these URLs for your repositories:"

/-- Example clone URL printed per account (source line 115). -/
def cloneMsg (n : String) : String :=
  "git@github.com-" ++ n ++ ":username/repository.git"

/-- State threaded through the account loops: the filesystem, the count of
keys generated so far (indexing the oracle), and the stdout lines. -/
structure RunSt where
  fs : FS
  k : Nat
  log : List String

/-- One iteration of the key-generation loop (source lines 98-109): check
the required fields (skip with a message when one is missing), generate and
write the key pair, and print the public key text. -/
def processOne (m : Manager) (sup : Nat → String × String) (a : Yaml)
    (st : RunSt) : Except (PyExc × RunSt) RunSt :=
  match pyMem "name" a with
  | .error e => .error (e, st)
  | .ok false => .ok { st with log := st.log ++ [skipMsg a] }
  | .ok true =>
    match pyMem "email" a with
    | .error e => .error (e, st)
    | .ok false => .ok { st with log := st.log ++ [skipMsg a] }
    | .ok true =>
      match pyGet a "name" with
      | .error e => .error (e, st)
      | .ok nv =>
        match pyGet a "email" with
        | .error e => .error (e, st)
        | .ok ev =>
          let pq := sup st.k
          let r := generate_key_pair m nv ev pq.1 pq.2 st.fs
          match readFile r.1 r.2 with
          | .error e =>
            .error (e, ⟨r.1, st.k,
              st.log ++ [procMsg (pyStr nv), genMsg (pyStr nv), addKeyMsg]⟩)
          | .ok txt =>
            .ok ⟨r.1, st.k + 1,
              st.log ++ [procMsg (pyStr nv), genMsg (pyStr nv), addKeyMsg, txt.trim]⟩

/-- The key-generation loop over the account records. -/
def procLoop (m : Manager) (sup : Nat → String × String) :
    List Yaml → RunSt → Except (PyExc × RunSt) RunSt
  | [], st => .ok st
  | a :: rest, st =>
    match processOne m sup a st with
    | .error e => .error e
    | .ok st2 => procLoop m sup rest st2

/-- The clone-URL loop (source lines 114-115). -/
def cloneLoop : List Yaml → RunSt → Except (PyExc × RunSt) RunSt
  | [], st => .ok st
  | a :: rest, st =>
    match pyGet a "name" with
    | .error e => .error (e, st)
    | .ok v => cloneLoop rest { st with log := st.log ++ [cloneMsg (pyStr v)] }

/-- Method `process_accounts` (source lines 82-115).  `read` is the result
of loading `config_path`; the returned triple is the outcome, the final
filesystem and the stdout lines. -/
def process_accounts (m : Manager) (config_path : String)
    (sup : Nat → String × String) (read : ReadResult) (fs : FS) :
    Outcome × FS × List String :=
  match read with
  | .notFound => (.exited 1, fs, [fileNotFoundMsg config_path])
  | .parseError e => (.exited 1, fs, [yamlErrorMsg e])
  | .ok config =>
    match pyMem "accounts" config with
    | .error e => (.raised e, fs, [])
    | .ok false => (.exited 1, fs, [noAccountsMsg])
    | .ok true =>
      match pyGet config "accounts" with
      | .error e => (.raised e, fs, [])
      | .ok av =>
        match pyIter av with
        | .error e => (.raised e, fs, [])
        | .ok accounts =>
          match procLoop m sup accounts ⟨fs, 0, []⟩ with
          | .error (e, st) => (.raised e, st.fs, st.log)
          | .ok st =>
            match update_ssh_config m accounts st.fs with
            | .error e => (.raised e, st.fs, st.log)
            | .ok fs2 =>
              match cloneLoop accounts ⟨fs2, st.k, st.log ++ [updatedMsg, urlsMsg]⟩ with
              | .error (e, st2) => (.raised e, st2.fs, st2.log)
              | .ok st2 => (.finished, st2.fs, st2.log)

/-- The `main` entry point (source lines 117-120): construct the manager
(which runs `ensure_ssh_directory`) and call `process_accounts`. -/
def runMain (m : Manager) (config_path : String)
    (sup : Nat → String × String) (read : ReadResult) (fs : FS) :
    Outcome × FS × List String :=
  process_accounts m config_path sup read (ensure_ssh_directory fs)

/-- An account record as the spec's data model prescribes it:
a mapping with string fields `name` and `email`. -/
def mkAccount (pr : String × String) : Yaml :=
  Yaml.map [("name", Yaml.str pr.1), ("email", Yaml.str pr.2)]

/-- Modelled from the spec: the stanza template of spec section 6, which
names the real host `service.com`.  Used to compare the specified config
text with the one the code renders. -/
def specHostEntry (n : String) : String :=
  "Host service.com-" ++ n ++
  "\n    HostName service.com\n    User git\n    IdentityFile ~/.ssh/id_rsa_" ++ n ++
  "\n    IdentitiesOnly yes\n"

/-- Concatenated stanzas for a list of account names. -/
def renderNames (names : List String) : String :=
  String.join (names.map hostEntry)

/-- The four stdout lines produced for one successfully processed account. -/
def goodLog (n : String) (pq : String × String) : List String :=
  [procMsg n, genMsg n, addKeyMsg, pq.2.trim]

/-- State after the key-generation loop has run over a list of well-formed
`(name, email)` accounts. -/
def goodRun (m : Manager) (sup : Nat → String × String) :
    List (String × String) → RunSt → RunSt
  | [], st => st
  | pr :: rest, st =>
    goodRun m sup rest
      ⟨(generate_key_pair m (.str pr.1) (.str pr.2) (sup st.k).1 (sup st.k).2 st.fs).1,
       st.k + 1, st.log ++ goodLog pr.1 (sup st.k)⟩

/-- Effect of the loop over a record that is skipped for missing fields. -/
def skipStep (a : Yaml) (st : RunSt) : RunSt :=
  { st with log := st.log ++ [skipMsg a] }

/-- Private and public key paths written for a list of accounts. -/
def keyPaths (m : Manager) : List (String × String) → List String
  | [] => []
  | pr :: rest => privPath m pr.1 :: pubPath m pr.1 :: keyPaths m rest

/-- Pointwise effect of the key-generation loop on the mode (and existence)
of the file at `p`: later accounts win, untouched paths keep `x`. -/
def keyModeUpd (m : Manager) (pairs : List (String × String)) (p : String)
    (x : Option Nat) : Option Nat :=
  pairs.foldl
    (fun y pr =>
      if p = pubPath m pr.1 then some 0o644
      else if p = privPath m pr.1 then some 0o600
      else y) x

/-- Stdout lines of the key-generation loop over well-formed accounts,
starting at oracle index `k`. -/
def goodLogs (sup : Nat → String × String) :
    List (String × String) → Nat → List String
  | [], _ => []
  | pr :: rest, k => goodLog pr.1 (sup k) ++ goodLogs sup rest (k + 1)

/-- An account record on which subscripting with `"name"` yields the given
string name. -/
def HasName (a : Yaml) (n : String) : Prop :=
  pyGet a "name" = .ok (Yaml.str n)

/-- Clone-URL lines printed for a list of account names. -/
def cloneLogs (names : List String) : List String :=
  names.map cloneMsg

/-- A concrete manager for witness instantiations. -/
def mgrW : Manager := ⟨"~/.ssh"⟩

/-- The empty filesystem: no `.ssh` directory, no files. -/
def fsEmpty : FS := ⟨none, fun _ => none⟩

/-- A concrete key-material oracle for witness instantiations. -/
def supW : Nat → String × String :=
  fun k => ("PRIVATE" ++ toString k, "ssh-rsa AAAA" ++ toString k)

/-- Config-file content of the result of `update_ssh_config` (diagnostic
projection used to state the C1 counterexample). -/
def configTextOf (r : Except PyExc FS) (p : String) : Option String :=
  match r with
  | .ok f => contentOf f p
  | .error _ => none

/-- A second key-material oracle, used to instantiate the two runs of the
idempotence claim with different random material. -/
def supW2 : Nat → String × String :=
  fun k => ("PRIVATEBIS" ++ toString k, "ssh-rsa BBBB" ++ toString k)

/-! ### Basic lemmas about paths and single filesystem operations -/

theorem privPath_ne_pubPath (m : Manager) (n : String) :
    privPath m n ≠ pubPath m n := by
  intro h
  have h2 : (privPath m n).length = (pubPath m n).length := congrArg String.length h
  rw [pubPath, String.length_append] at h2
  have h4 : (".pub" : String).length = 4 := rfl
  omega

theorem generate_key_pair_snd (m : Manager) (nv ev : Yaml) (a b : String) (fs : FS) :
    (generate_key_pair m nv ev a b fs).2 = pubPath m (pyStr nv) := rfl

theorem generate_key_pair_files_pub (m : Manager) (nv ev : Yaml) (a b : String) (fs : FS) :
    (generate_key_pair m nv ev a b fs).1.files (pubPath m (pyStr nv)) =
      some ⟨b, 0o644⟩ := by
  simp [generate_key_pair, FS.write, FS.chmod, privPath, pubPath]

theorem generate_key_pair_files_priv (m : Manager) (nv ev : Yaml) (a b : String) (fs : FS) :
    (generate_key_pair m nv ev a b fs).1.files (privPath m (pyStr nv)) =
      some ⟨a, 0o600⟩ := by
  have hne := privPath_ne_pubPath m (pyStr nv)
  simp only [generate_key_pair, FS.write, FS.chmod, privPath, pubPath] at hne ⊢
  simp [hne]

theorem generate_key_pair_files_other (m : Manager) (nv ev : Yaml) (a b : String)
    (fs : FS) (p : String) (h1 : p ≠ privPath m (pyStr nv))
    (h2 : p ≠ pubPath m (pyStr nv)) :
    (generate_key_pair m nv ev a b fs).1.files p = fs.files p := by
  simp only [generate_key_pair, FS.write, FS.chmod, privPath, pubPath] at h1 h2 ⊢
  simp only [if_neg h1, if_neg h2]
  cases hfp : fs.files p with
  | none => simp
  | some fd => simp [if_neg h1, if_neg h2]

theorem generate_key_pair_modeOf (m : Manager) (nv ev : Yaml) (a b : String)
    (fs : FS) (p : String) :
    modeOf (generate_key_pair m nv ev a b fs).1 p =
      if p = pubPath m (pyStr nv) then some 0o644
      else if p = privPath m (pyStr nv) then some 0o600
      else modeOf fs p := by
  by_cases h2 : p = pubPath m (pyStr nv)
  · subst h2; simp [modeOf, generate_key_pair_files_pub]
  · by_cases h1 : p = privPath m (pyStr nv)
    · subst h1; simp [modeOf, generate_key_pair_files_priv, h2]
    · simp [modeOf, generate_key_pair_files_other m nv ev a b fs p h1 h2, h1, h2]

theorem generate_key_pair_dirMode (m : Manager) (nv ev : Yaml) (a b : String) (fs : FS) :
    (generate_key_pair m nv ev a b fs).1.dirMode = fs.dirMode := rfl

theorem finalizeFS_content_cfg (m : Manager) (s : String) (fs : FS) :
    contentOf (finalizeFS m s fs) m.config_file = some s := by
  simp [finalizeFS, contentOf, FS.write, FS.chmod]

theorem finalizeFS_mode_cfg (m : Manager) (s : String) (fs : FS) :
    modeOf (finalizeFS m s fs) m.config_file = some 0o600 := by
  simp [finalizeFS, modeOf, FS.write, FS.chmod]

theorem finalizeFS_files_other (m : Manager) (s : String) (fs : FS) (p : String)
    (h : p ≠ m.config_file) :
    (finalizeFS m s fs).files p = fs.files p := by
  simp only [finalizeFS, FS.write, FS.chmod, if_neg h]
  cases hfp : fs.files p with
  | none => simp [if_neg h, hfp]
  | some fd => simp [if_neg h, hfp]

theorem finalizeFS_modeOf (m : Manager) (s : String) (fs : FS) (p : String) :
    modeOf (finalizeFS m s fs) p =
      if p = m.config_file then some 0o600 else modeOf fs p := by
  by_cases h : p = m.config_file
  · subst h; simp [finalizeFS_mode_cfg]
  · simp [modeOf, finalizeFS_files_other m s fs p h, h]

theorem finalizeFS_dirMode (m : Manager) (s : String) (fs : FS) :
    (finalizeFS m s fs).dirMode = fs.dirMode := rfl

theorem ensure_ssh_directory_eq (fs : FS) :
    ensure_ssh_directory fs = { fs with dirMode := some 0o700 } := by
  unfold ensure_ssh_directory
  split <;> rfl

/-! ### The key-generation loop on well-formed and skipped records -/

theorem processOne_mk (m : Manager) (sup : Nat → String × String)
    (pr : String × String) (st : RunSt) :
    processOne m sup (mkAccount pr) st =
      .ok ⟨(generate_key_pair m (.str pr.1) (.str pr.2) (sup st.k).1 (sup st.k).2 st.fs).1,
           st.k + 1, st.log ++ goodLog pr.1 (sup st.k)⟩ := by
  have hpub : (generate_key_pair m (.str pr.1) (.str pr.2)
      (sup st.k).1 (sup st.k).2 st.fs).1.files (pubPath m pr.1) =
      some ⟨(sup st.k).2, 0o644⟩ :=
    generate_key_pair_files_pub m (.str pr.1) (.str pr.2) (sup st.k).1 (sup st.k).2 st.fs
  simp [processOne, mkAccount, pyMem, pyGet, List.lookup, readFile,
    generate_key_pair_snd, hpub, goodLog, pyStr]

theorem processOne_skip (m : Manager) (sup : Nat → String × String)
    (kvs : List (String × Yaml)) (st : RunSt)
    (h : (kvs.lookup "name").isNone ∨ (kvs.lookup "email").isNone) :
    processOne m sup (Yaml.map kvs) st = .ok (skipStep (Yaml.map kvs) st) := by
  rcases h with h | h
  · simp [processOne, pyMem, Option.isNone_iff_eq_none.mp h, skipStep]
  · cases hn : kvs.lookup "name" with
    | none => simp [processOne, pyMem, hn, skipStep]
    | some nv => simp [processOne, pyMem, hn, Option.isNone_iff_eq_none.mp h, skipStep]

theorem procLoop_append (m : Manager) (sup : Nat → String × String)
    (xs ys : List Yaml) (st : RunSt) :
    procLoop m sup (xs ++ ys) st =
      match procLoop m sup xs st with
      | .error e => .error e
      | .ok st2 => procLoop m sup ys st2 := by
  induction xs generalizing st with
  | nil => simp [procLoop]
  | cons a rest ih =>
    simp only [List.cons_append, procLoop]
    cases processOne m sup a st with
    | error e => rfl
    | ok st2 => exact ih st2

theorem procLoop_mk (m : Manager) (sup : Nat → String × String)
    (pairs : List (String × String)) (st : RunSt) :
    procLoop m sup (pairs.map mkAccount) st = .ok (goodRun m sup pairs st) := by
  induction pairs generalizing st with
  | nil => simp [procLoop, goodRun]
  | cons pr rest ih =>
    simp only [List.map_cons, procLoop, processOne_mk, goodRun]
    exact ih _

theorem goodRun_fs_modeOf (m : Manager) (sup : Nat → String × String)
    (pairs : List (String × String)) (st : RunSt) (p : String) :
    modeOf (goodRun m sup pairs st).fs p = keyModeUpd m pairs p (modeOf st.fs p) := by
  induction pairs generalizing st with
  | nil => rfl
  | cons pr rest ih =>
    simp only [goodRun, keyModeUpd, List.foldl_cons]
    rw [ih]
    simp only [keyModeUpd, generate_key_pair_modeOf, pyStr]

theorem goodRun_fs_files_other (m : Manager) (sup : Nat → String × String)
    (pairs : List (String × String)) (st : RunSt) (p : String)
    (h : p ∉ keyPaths m pairs) :
    (goodRun m sup pairs st).fs.files p = st.fs.files p := by
  induction pairs generalizing st with
  | nil => rfl
  | cons pr rest ih =>
    simp only [keyPaths, List.mem_cons, not_or] at h
    simp only [goodRun]
    rw [ih _ h.2.2]
    exact generate_key_pair_files_other m (.str pr.1) (.str pr.2) _ _ st.fs p h.1 h.2.1

theorem goodRun_fs_dirMode (m : Manager) (sup : Nat → String × String)
    (pairs : List (String × String)) (st : RunSt) :
    (goodRun m sup pairs st).fs.dirMode = st.fs.dirMode := by
  induction pairs generalizing st with
  | nil => rfl
  | cons pr rest ih => simp only [goodRun]; rw [ih]; rfl

theorem keyModeUpd_isSome (m : Manager) (pairs : List (String × String))
    (p : String) (x : Option Nat) :
    (keyModeUpd m pairs p x).isSome =
      (decide (p ∈ keyPaths m pairs) || x.isSome) := by
  induction pairs generalizing x with
  | nil => simp [keyModeUpd, keyPaths]
  | cons pr rest ih =>
    have step : keyModeUpd m (pr :: rest) p x =
        keyModeUpd m rest p
          (if p = pubPath m pr.1 then some 0o644
           else if p = privPath m pr.1 then some 0o600 else x) := rfl
    rw [step, ih]
    by_cases h2 : p = pubPath m pr.1
    · simp [keyPaths, h2]
    · by_cases h1 : p = privPath m pr.1
      · have hne := privPath_ne_pubPath m pr.1
        simp [keyPaths, h1, h2, hne]
      · simp [keyPaths, h1, h2]

theorem keyModeUpd_const_or_id (m : Manager) (pairs : List (String × String))
    (p : String) :
    (∀ x y : Option Nat, keyModeUpd m pairs p x = keyModeUpd m pairs p y) ∨
      (∀ x : Option Nat, keyModeUpd m pairs p x = x) := by
  induction pairs with
  | nil => right; intro x; rfl
  | cons pr rest ih =>
    by_cases h2 : p = pubPath m pr.1
    · left; intro x y; simp [keyModeUpd, h2]
    · by_cases h1 : p = privPath m pr.1
      · left; intro x y; simp [keyModeUpd, h1, h2]
      · rcases ih with ih | ih
        · left; intro x y
          simp only [keyModeUpd, List.foldl_cons, if_neg h1, if_neg h2]
          exact ih x y
        · right; intro x
          simp only [keyModeUpd, List.foldl_cons, if_neg h1, if_neg h2]
          exact ih x

theorem keyModeUpd_idem (m : Manager) (pairs : List (String × String))
    (p : String) (x : Option Nat) :
    keyModeUpd m pairs p (keyModeUpd m pairs p x) = keyModeUpd m pairs p x := by
  rcases keyModeUpd_const_or_id m pairs p with h | h
  · exact h _ x
  · rw [h, h]

theorem mem_keyPaths_of_mem (m : Manager) (pairs : List (String × String))
    (pr : String × String) (h : pr ∈ pairs) :
    privPath m pr.1 ∈ keyPaths m pairs ∧ pubPath m pr.1 ∈ keyPaths m pairs := by
  induction pairs with
  | nil => cases h
  | cons q rest ih =>
    rcases List.mem_cons.mp h with h | h
    · subst h; simp [keyPaths]
    · have := ih h
      simp [keyPaths, this.1, this.2]

/-! ### Logs of the loops and characterization of a full run -/

theorem goodRun_log (m : Manager) (sup : Nat → String × String)
    (pairs : List (String × String)) (st : RunSt) :
    (goodRun m sup pairs st).log = st.log ++ goodLogs sup pairs st.k := by
  induction pairs generalizing st with
  | nil => simp [goodRun, goodLogs]
  | cons pr rest ih =>
    simp only [goodRun, goodLogs]
    rw [ih]
    simp [List.append_assoc]

theorem goodRun_k (m : Manager) (sup : Nat → String × String)
    (pairs : List (String × String)) (st : RunSt) :
    (goodRun m sup pairs st).k = st.k + pairs.length := by
  induction pairs generalizing st with
  | nil => simp [goodRun]
  | cons pr rest ih =>
    simp only [goodRun]
    rw [ih]
    simp; omega

theorem hasName_mk (pr : String × String) : HasName (mkAccount pr) pr.1 := by
  simp [HasName, mkAccount, pyGet, List.lookup]

theorem hasName_map (kvs : List (String × Yaml)) (bn : String)
    (h : kvs.lookup "name" = some (Yaml.str bn)) : HasName (Yaml.map kvs) bn := by
  simp [HasName, pyGet, h]

theorem forall₂_hasName_mk (pairs : List (String × String)) :
    List.Forall₂ HasName (pairs.map mkAccount) (pairs.map Prod.fst) := by
  induction pairs with
  | nil => exact List.Forall₂.nil
  | cons pr rest ih => exact List.Forall₂.cons (hasName_mk pr) ih

theorem stanzasE_named (accounts : List Yaml) (names : List String)
    (h : List.Forall₂ HasName accounts names) :
    stanzasE accounts = .ok (names.map hostEntry) := by
  induction h with
  | nil => rfl
  | cons ha _ ih =>
    unfold HasName at ha
    simp only [stanzasE, ha, ih, List.map_cons, pyStr]

theorem update_ssh_config_named (m : Manager) (accounts : List Yaml)
    (names : List String) (fs : FS)
    (h : List.Forall₂ HasName accounts names) :
    update_ssh_config m accounts fs = .ok (finalizeFS m (renderNames names) fs) := by
  simp [update_ssh_config, stanzasE_named accounts names h, renderNames]

theorem cloneLoop_named (accounts : List Yaml) (names : List String)
    (h : List.Forall₂ HasName accounts names) (st : RunSt) :
    cloneLoop accounts st = .ok ⟨st.fs, st.k, st.log ++ cloneLogs names⟩ := by
  induction h generalizing st with
  | nil => simp [cloneLoop, cloneLogs]
  | cons ha _ ih =>
    unfold HasName at ha
    simp only [cloneLoop, ha]
    rw [ih]
    simp [cloneLogs, pyStr, List.append_assoc]

/-- Full-run characterization on a config mapping whose `accounts` entry is
a list of well-formed `(name, email)` records: the run finishes, the keys
are written by `goodRun`, and the config file is rewritten in full. -/
theorem run_good (m : Manager) (cp : String) (sup : Nat → String × String)
    (fs : FS) (kvs : List (String × Yaml)) (pairs : List (String × String))
    (hacc : kvs.lookup "accounts" = some (Yaml.list (pairs.map mkAccount))) :
    process_accounts m cp sup (.ok (Yaml.map kvs)) fs =
      (.finished,
       finalizeFS m (renderNames (pairs.map Prod.fst))
         (goodRun m sup pairs ⟨fs, 0, []⟩).fs,
       (goodRun m sup pairs ⟨fs, 0, []⟩).log ++ [updatedMsg, urlsMsg] ++
         cloneLogs (pairs.map Prod.fst)) := by
  have hmk := forall₂_hasName_mk pairs
  simp only [process_accounts, pyMem, hacc, Option.isSome_some, pyGet, pyIter,
    procLoop_mk, update_ssh_config_named m _ _ _ hmk,
    cloneLoop_named _ _ hmk]

theorem forall₂_hasName_append {as₁ as₂ : List Yaml} {ns₁ ns₂ : List String}
    (h₁ : List.Forall₂ HasName as₁ ns₁) (h₂ : List.Forall₂ HasName as₂ ns₂) :
    List.Forall₂ HasName (as₁ ++ as₂) (ns₁ ++ ns₂) := by
  induction h₁ with
  | nil => exact h₂
  | cons ha _ ih => exact List.Forall₂.cons ha ih

theorem procLoop_mixed (m : Manager) (sup : Nat → String × String)
    (A B : List (String × String)) (bkvs : List (String × Yaml)) (st : RunSt)
    (hskip : (bkvs.lookup "name").isNone ∨ (bkvs.lookup "email").isNone) :
    procLoop m sup (A.map mkAccount ++ Yaml.map bkvs :: B.map mkAccount) st =
      .ok (goodRun m sup B (skipStep (Yaml.map bkvs) (goodRun m sup A st))) := by
  rw [procLoop_append]
  simp only [procLoop_mk, procLoop, processOne_skip m sup bkvs _ hskip]

/-- Full-run characterization when the `accounts` list contains one record
that has a (string) `name` but is missing `email`, among otherwise
well-formed records: the record is skipped by the key-generation loop, yet
the final rewrite emits a stanza for it and its clone URL is printed. -/
theorem run_mixed_named (m : Manager) (cp : String) (sup : Nat → String × String)
    (fs : FS) (kvs : List (String × Yaml)) (A B : List (String × String))
    (bkvs : List (String × Yaml)) (bn : String)
    (hn : bkvs.lookup "name" = some (Yaml.str bn))
    (he : bkvs.lookup "email" = none)
    (hacc : kvs.lookup "accounts" =
      some (Yaml.list (A.map mkAccount ++ Yaml.map bkvs :: B.map mkAccount))) :
    process_accounts m cp sup (.ok (Yaml.map kvs)) fs =
      (.finished,
       finalizeFS m (renderNames (A.map Prod.fst ++ bn :: B.map Prod.fst))
         (goodRun m sup B (skipStep (Yaml.map bkvs) (goodRun m sup A ⟨fs, 0, []⟩))).fs,
       (goodRun m sup B (skipStep (Yaml.map bkvs) (goodRun m sup A ⟨fs, 0, []⟩))).log ++
         [updatedMsg, urlsMsg] ++
         cloneLogs (A.map Prod.fst ++ bn :: B.map Prod.fst)) := by
  have hfa : List.Forall₂ HasName
      (A.map mkAccount ++ Yaml.map bkvs :: B.map mkAccount)
      (A.map Prod.fst ++ bn :: B.map Prod.fst) :=
    forall₂_hasName_append (forall₂_hasName_mk A)
      (List.Forall₂.cons (hasName_map bkvs bn hn) (forall₂_hasName_mk B))
  have hskip : (bkvs.lookup "name").isNone ∨ (bkvs.lookup "email").isNone := by
    right; simp [he]
  simp only [process_accounts, pyMem, hacc, Option.isSome_some, pyGet, pyIter,
    procLoop_mixed m sup A B bkvs _ hskip,
    update_ssh_config_named m _ _ _ hfa, cloneLoop_named _ _ hfa]

/-- Full-run characterization when the `accounts` list contains one record
with no `name` key among otherwise well-formed records: the record is
skipped by the key-generation loop, and the final rewrite then raises an
uncaught `KeyError` before writing the config file. -/
theorem run_mixed_noname (m : Manager) (cp : String) (sup : Nat → String × String)
    (fs : FS) (kvs : List (String × Yaml)) (A B : List (String × String))
    (bkvs : List (String × Yaml))
    (hn : bkvs.lookup "name" = none)
    (hacc : kvs.lookup "accounts" =
      some (Yaml.list (A.map mkAccount ++ Yaml.map bkvs :: B.map mkAccount))) :
    process_accounts m cp sup (.ok (Yaml.map kvs)) fs =
      (.raised (.keyError "name"),
       (goodRun m sup B (skipStep (Yaml.map bkvs) (goodRun m sup A ⟨fs, 0, []⟩))).fs,
       (goodRun m sup B (skipStep (Yaml.map bkvs) (goodRun m sup A ⟨fs, 0, []⟩))).log) := by
  have hskip : (bkvs.lookup "name").isNone ∨ (bkvs.lookup "email").isNone := by
    left; simp [hn]
  have hbad : stanzasE (Yaml.map bkvs :: B.map mkAccount) = .error (.keyError "name") := by
    simp [stanzasE, pyGet, hn]
  have hstanz : ∀ A2 : List (String × String),
      stanzasE (A2.map mkAccount ++ Yaml.map bkvs :: B.map mkAccount) =
        .error (.keyError "name") := by
    intro A2
    induction A2 with
    | nil => simpa using hbad
    | cons pr rest ih =>
      simp [stanzasE, mkAccount, pyGet, List.lookup, List.append_eq, ih]
  simp only [process_accounts, pyMem, hacc, Option.isSome_some, pyGet, pyIter,
    procLoop_mixed m sup A B bkvs _ hskip, update_ssh_config, hstanz A]

theorem isSome_modeOf (fs : FS) (p : String) :
    (modeOf fs p).isSome = (fs.files p).isSome := by
  cases h : fs.files p <;> simp [modeOf, h]

theorem renderNames_append (xs ys : List String) :
    renderNames (xs ++ ys) = renderNames xs ++ renderNames ys := by
  simp only [renderNames, String.join_eq, List.map_append, List.flatten_append]
  rfl

theorem renderNames_cons (n : String) (ys : List String) :
    renderNames (n :: ys) = hostEntry n ++ renderNames ys := by
  simp only [renderNames, String.join_eq, List.map_cons, List.flatten_cons]
  rfl

/-! ### Concrete instances used by the witnesses and counterexamples -/

/-! ### The claims -/

/-- C1, counterexample: on the two accounts named `work` and `personal`,
the config text the code writes is not the concatenation of the spec's
`service.com` stanzas: the code binds the aliases to `github.com` (and each
stanza starts with a blank line). -/
theorem claim_C1_counterexample :
    configTextOf
      (update_ssh_config mgrW
        [mkAccount ("work", "work@example.com"),
         mkAccount ("personal", "personal@example.com")] fsEmpty)
      mgrW.config_file ≠
      some (specHostEntry "work" ++ specHostEntry "personal") := by
  decide

/-- C1 (amended): for every account list in which each record subscripts to
a string name, `update_ssh_config` writes to the config file exactly the
concatenation, in list order, of one `github.com` stanza per account
(`Host github.com-name` / `HostName github.com` / `User git` /
`IdentityFile ~/.ssh/id_rsa_name` / `IdentitiesOnly yes`, each stanza
preceded by a blank line), fully replacing prior content, sets its mode to
`0o600`, and touches no other file. -/
theorem claim_C1 (m : Manager) (accounts : List Yaml) (names : List String)
    (fs : FS) (h : List.Forall₂ HasName accounts names) :
    update_ssh_config m accounts fs = .ok (finalizeFS m (renderNames names) fs) ∧
    contentOf (finalizeFS m (renderNames names) fs) m.config_file =
      some (renderNames names) ∧
    modeOf (finalizeFS m (renderNames names) fs) m.config_file = some 0o600 ∧
    ∀ p, p ≠ m.config_file →
      (finalizeFS m (renderNames names) fs).files p = fs.files p :=
  ⟨update_ssh_config_named m accounts names fs h,
   finalizeFS_content_cfg m (renderNames names) fs,
   finalizeFS_mode_cfg m (renderNames names) fs,
   fun p hp => finalizeFS_files_other m (renderNames names) fs p hp⟩

/-- C1 witness: on the two accounts `work` and `personal` the written text
is exactly the two github.com stanzas and nothing else, at mode `0o600`. -/
theorem claim_C1_witness :
    update_ssh_config mgrW
        [mkAccount ("work", "work@example.com"),
         mkAccount ("personal", "personal@example.com")] fsEmpty =
      .ok (finalizeFS mgrW (renderNames ["work", "personal"]) fsEmpty) ∧
    contentOf (finalizeFS mgrW (renderNames ["work", "personal"]) fsEmpty)
        mgrW.config_file = some (renderNames ["work", "personal"]) ∧
    modeOf (finalizeFS mgrW (renderNames ["work", "personal"]) fsEmpty)
        mgrW.config_file = some 0o600 :=
  have h : List.Forall₂ HasName
      [mkAccount ("work", "work@example.com"),
       mkAccount ("personal", "personal@example.com")] ["work", "personal"] :=
    List.Forall₂.cons (hasName_mk ("work", "work@example.com"))
      (List.Forall₂.cons (hasName_mk ("personal", "personal@example.com"))
        List.Forall₂.nil)
  ⟨(claim_C1 mgrW _ _ fsEmpty h).1, (claim_C1 mgrW _ _ fsEmpty h).2.1,
   (claim_C1 mgrW _ _ fsEmpty h).2.2.1⟩

/-- C3: `generate_key_pair` calls the RSA generator with key size 4096 and
public exponent 65537, serializes the private key as unencrypted PKCS#8 PEM
and the public key in OpenSSH format, writes the private key bytes to
`id_rsa_name` with mode `0o600` and the public key bytes to
`id_rsa_name.pub` with mode `0o644` in the key-storage directory, touches
nothing else, and returns the public key path. -/
theorem claim_C3 :
    generateKeyPairCalls =
      (⟨65537, 4096⟩,
       ⟨Encoding.PEM, PrivateFormat.PKCS8, EncryptionAlgorithm.NoEncryption⟩,
       ⟨Encoding.OpenSSH, PublicFormat.OpenSSH⟩) ∧
    ∀ (m : Manager) (name email private_pem public_pem : String) (fs : FS),
      (generate_key_pair m (.str name) (.str email) private_pem public_pem fs).2 =
        pubPath m name ∧
      (generate_key_pair m (.str name) (.str email) private_pem public_pem fs).1.files
        (privPath m name) = some ⟨private_pem, 0o600⟩ ∧
      (generate_key_pair m (.str name) (.str email) private_pem public_pem fs).1.files
        (pubPath m name) = some ⟨public_pem, 0o644⟩ ∧
      ∀ p, p ≠ privPath m name → p ≠ pubPath m name →
        (generate_key_pair m (.str name) (.str email) private_pem public_pem fs).1.files
          p = fs.files p :=
  ⟨rfl, fun m name email a b fs =>
    ⟨generate_key_pair_snd m (.str name) (.str email) a b fs,
     generate_key_pair_files_priv m (.str name) (.str email) a b fs,
     generate_key_pair_files_pub m (.str name) (.str email) a b fs,
     fun p h1 h2 => generate_key_pair_files_other m (.str name) (.str email) a b fs p h1 h2⟩⟩

/-- C3 witness: concrete instance for the account name `work`. -/
theorem claim_C3_witness :
    (generate_key_pair mgrW (.str "work") (.str "work@example.com")
        "PRIVATE0" "ssh-rsa AAAA0" fsEmpty).2 = pubPath mgrW "work" ∧
    (generate_key_pair mgrW (.str "work") (.str "work@example.com")
        "PRIVATE0" "ssh-rsa AAAA0" fsEmpty).1.files (privPath mgrW "work") =
      some ⟨"PRIVATE0", 0o600⟩ ∧
    (generate_key_pair mgrW (.str "work") (.str "work@example.com")
        "PRIVATE0" "ssh-rsa AAAA0" fsEmpty).1.files (pubPath mgrW "work") =
      some ⟨"ssh-rsa AAAA0", 0o644⟩ :=
  ⟨(claim_C3.2 mgrW "work" "work@example.com" "PRIVATE0" "ssh-rsa AAAA0" fsEmpty).1,
   (claim_C3.2 mgrW "work" "work@example.com" "PRIVATE0" "ssh-rsa AAAA0" fsEmpty).2.1,
   (claim_C3.2 mgrW "work" "work@example.com" "PRIVATE0" "ssh-rsa AAAA0" fsEmpty).2.2.1⟩

/-- C4: on a config mapping without an `accounts` key, the run exits with
status 1 after printing the diagnostic, and the final state differs from
the initial one only in the key-storage directory's mode, which is `0o700`;
no file is created or modified. -/
theorem claim_C4 (m : Manager) (cp : String) (sup : Nat → String × String)
    (fs : FS) (kvs : List (String × Yaml))
    (h : kvs.lookup "accounts" = none) :
    runMain m cp sup (.ok (Yaml.map kvs)) fs =
      (.exited 1, { dirMode := some 0o700, files := fs.files }, [noAccountsMsg]) := by
  rw [runMain, ensure_ssh_directory_eq]
  simp [process_accounts, pyMem, h]

/-- C4 witness: concrete run on a mapping with only an `other` key. -/
theorem claim_C4_witness :
    runMain mgrW "config.yaml" supW (.ok (Yaml.map [("other", Yaml.int 3)])) fsEmpty =
      (.exited 1, { dirMode := some 0o700, files := fsEmpty.files }, [noAccountsMsg]) :=
  claim_C4 mgrW "config.yaml" supW fsEmpty [("other", Yaml.int 3)] rfl

/-- C6: `generate_key_pair` ignores its `email` argument entirely: with the
same account name, the written paths, contents, permissions and the
returned public key path are identical for any two email values, and a
second call with the same name silently overwrites the files of the first,
touching no other path. -/
theorem claim_C6 :
    ∀ (m : Manager) (nv e1 e2 : Yaml) (pq1 pq2 : String × String) (fs : FS),
      generate_key_pair m nv e1 pq1.1 pq1.2 fs =
        generate_key_pair m nv e2 pq1.1 pq1.2 fs ∧
      (generate_key_pair m nv e1 pq1.1 pq1.2 fs).2 = pubPath m (pyStr nv) ∧
      ((generate_key_pair m nv e2 pq2.1 pq2.2
          (generate_key_pair m nv e1 pq1.1 pq1.2 fs).1).1.files
        (privPath m (pyStr nv)) = some ⟨pq2.1, 0o600⟩) ∧
      ((generate_key_pair m nv e2 pq2.1 pq2.2
          (generate_key_pair m nv e1 pq1.1 pq1.2 fs).1).1.files
        (pubPath m (pyStr nv)) = some ⟨pq2.2, 0o644⟩) ∧
      ∀ p, p ≠ privPath m (pyStr nv) → p ≠ pubPath m (pyStr nv) →
        (generate_key_pair m nv e2 pq2.1 pq2.2
          (generate_key_pair m nv e1 pq1.1 pq1.2 fs).1).1.files p = fs.files p := by
  intro m nv e1 e2 pq1 pq2 fs
  refine ⟨rfl, rfl, generate_key_pair_files_priv m nv e2 pq2.1 pq2.2 _,
    generate_key_pair_files_pub m nv e2 pq2.1 pq2.2 _, fun p h1 h2 => ?_⟩
  rw [generate_key_pair_files_other m nv e2 pq2.1 pq2.2 _ p h1 h2,
    generate_key_pair_files_other m nv e1 pq1.1 pq1.2 fs p h1 h2]

/-- C6 witness: duplicate name `work` with two different emails; the second
call's bytes replace the first call's at the same paths. -/
theorem claim_C6_witness :
    generate_key_pair mgrW (.str "work") (.str "a@example.com") "P1" "U1" fsEmpty =
      generate_key_pair mgrW (.str "work") (.str "b@example.com") "P1" "U1" fsEmpty ∧
    ((generate_key_pair mgrW (.str "work") (.str "b@example.com") "P2" "U2"
        (generate_key_pair mgrW (.str "work") (.str "a@example.com") "P1" "U1"
          fsEmpty).1).1.files
      (privPath mgrW "work") = some ⟨"P2", 0o600⟩) :=
  ⟨(claim_C6 mgrW (.str "work") (.str "a@example.com") (.str "b@example.com")
      ("P1", "U1") ("P2", "U2") fsEmpty).1,
   (claim_C6 mgrW (.str "work") (.str "a@example.com") (.str "b@example.com")
      ("P1", "U1") ("P2", "U2") fsEmpty).2.2.1⟩

/-- C10, counterexample: a file whose YAML is the bare string scalar
`bare scalar` parses to a non-mapping value, yet the run does not raise
`TypeError`: Python's `in` on a string is a substring test, so the code
prints the missing-section diagnostic and exits with status 1. -/
theorem claim_C10_counterexample :
    (runMain mgrW "config.yaml" supW (.ok (Yaml.str "bare scalar")) fsEmpty).1 =
      .exited 1 ∧
    (runMain mgrW "config.yaml" supW (.ok (Yaml.str "bare scalar")) fsEmpty).1 ≠
      .raised .typeError := by
  constructor
  · rfl
  · decide

/-- C10 (amended): for every parse result that is `None`, a number or a
boolean (the non-iterable values), the membership test for `accounts`
raises an uncaught `TypeError` and the run terminates with that exception
rather than exiting with status 1, having touched nothing but the
key-storage directory's mode. -/
theorem claim_C10 (m : Manager) (cp : String) (sup : Nat → String × String)
    (fs : FS) (v : Yaml)
    (h : v = Yaml.null ∨ (∃ n, v = Yaml.int n) ∨ (∃ b, v = Yaml.bool b)) :
    (runMain m cp sup (.ok v) fs).1 = .raised .typeError ∧
    (runMain m cp sup (.ok v) fs).2.1 =
      { dirMode := some 0o700, files := fs.files } := by
  rcases h with h | ⟨n, h⟩ | ⟨b, h⟩ <;> subst h <;>
    (rw [runMain, ensure_ssh_directory_eq]; exact ⟨rfl, rfl⟩)

/-- C10 witness: the empty input file parses to `None` and raises. -/
theorem claim_C10_witness :
    (runMain mgrW "config.yaml" supW (.ok Yaml.null) fsEmpty).1 =
      .raised .typeError :=
  (claim_C10 mgrW "config.yaml" supW fsEmpty Yaml.null (Or.inl rfl)).1

/-- A bare string scalar that does contain `accounts` as a substring passes
the membership test, and the run then raises `TypeError` at the
subscription `config` with key `accounts` — not at the membership test and
not via the exit-1 diagnostic path. -/
theorem str_scalar_containing_accounts_raises :
    (runMain mgrW "config.yaml" supW (.ok (Yaml.str "my accounts here"))
      fsEmpty).1 = .raised .typeError := rfl

/-- A sequence scalar that contains the element `accounts` likewise passes
the membership test and then raises `TypeError` at the subscription. -/
theorem list_scalar_containing_accounts_raises :
    (runMain mgrW "config.yaml" supW (.ok (Yaml.list [Yaml.str "accounts"]))
      fsEmpty).1 = .raised .typeError := rfl

/-- Once the membership test for `accounts` has succeeded, the remainder of
`process_accounts` either finishes or raises an uncaught exception: no
later code path calls `sys.exit`. -/
theorem process_memtrue_not_exited (m : Manager) (cp : String)
    (sup : Nat → String × String) (fs : FS) (config : Yaml) (c : Nat)
    (hm : pyMem "accounts" config = .ok true) :
    (process_accounts m cp sup (.ok config) fs).1 ≠ .exited c := by
  simp only [process_accounts, hm]
  split
  · simp
  · split
    · simp
    · split
      · simp
      · split
        · simp
        · split
          · simp
          · simp

/-- C2: the run ends in the controlled `sys.exit(1)` with a single
diagnostic line exactly when the input file is missing, the YAML fails to
parse, or the membership test for the `accounts` section comes back false;
on a mapping with an `accounts` list of well-formed records the run
finishes and the process exit code is 0. -/
theorem claim_C2 (m : Manager) (cp : String) (sup : Nat → String × String)
    (fs : FS) :
    (∀ read : ReadResult,
      ((runMain m cp sup read fs).1 = .exited 1 ↔
        read = .notFound ∨ (∃ msg, read = .parseError msg) ∨
          (∃ v, read = .ok v ∧ pyMem "accounts" v = .ok false))) ∧
    (runMain m cp sup .notFound fs).2.2 = [fileNotFoundMsg cp] ∧
    (∀ msg, (runMain m cp sup (.parseError msg) fs).2.2 = [yamlErrorMsg msg]) ∧
    (∀ v, pyMem "accounts" v = .ok false →
      (runMain m cp sup (.ok v) fs).2.2 = [noAccountsMsg]) ∧
    (∀ (kvs : List (String × Yaml)) (pairs : List (String × String)),
      kvs.lookup "accounts" = some (Yaml.list (pairs.map mkAccount)) →
      (runMain m cp sup (.ok (Yaml.map kvs)) fs).1 = .finished ∧
      exitCode (runMain m cp sup (.ok (Yaml.map kvs)) fs).1 = 0) := by
  refine ⟨?_, rfl, fun msg => rfl, ?_, ?_⟩
  · intro read
    cases read with
    | notFound => simp [runMain, process_accounts]
    | parseError msg => simp [runMain, process_accounts]
    | ok v =>
      constructor
      · intro h
        cases hm : pyMem "accounts" v with
        | error e =>
          rw [runMain] at h
          simp [process_accounts, hm] at h
        | ok b =>
          cases b with
          | false => exact Or.inr (Or.inr ⟨v, rfl, hm⟩)
          | true =>
            rw [runMain] at h
            exact absurd h (process_memtrue_not_exited m cp sup _ v 1 hm)
      · intro h
        rcases h with h | ⟨msg, h⟩ | ⟨w, hw, hm⟩
        · exact absurd h (by simp)
        · exact absurd h (by simp)
        · cases hw
          rw [runMain]
          simp [process_accounts, hm]
  · intro v hm
    rw [runMain]
    simp [process_accounts, hm]
  · intro kvs pairs hacc
    have e := run_good m cp sup (ensure_ssh_directory fs) kvs pairs hacc
    rw [runMain, e]
    exact ⟨rfl, rfl⟩

/-- C2 witness: a one-account config finishes with exit code 0, and the
missing-file case prints the not-found diagnostic. -/
theorem claim_C2_witness :
    (runMain mgrW "config.yaml" supW
      (.ok (Yaml.map [("accounts", Yaml.list [mkAccount ("work", "work@example.com")])]))
      fsEmpty).1 = .finished ∧
    (runMain mgrW "config.yaml" supW .notFound fsEmpty).2.2 =
      [fileNotFoundMsg "config.yaml"] :=
  ⟨((claim_C2 mgrW "config.yaml" supW fsEmpty).2.2.2.2
      [("accounts", Yaml.list [mkAccount ("work", "work@example.com")])]
      [("work", "work@example.com")] (by simp [List.lookup])).1,
   (claim_C2 mgrW "config.yaml" supW fsEmpty).2.1⟩

theorem modeOf_ensure (fs : FS) (p : String) :
    modeOf (ensure_ssh_directory fs) p = modeOf fs p := by
  rw [ensure_ssh_directory_eq]; rfl

theorem files_ensure (fs : FS) (p : String) :
    (ensure_ssh_directory fs).files p = fs.files p := by
  rw [ensure_ssh_directory_eq]

/-- Mode of any path after a full successful run: `0o600` for the config
file, the key-write fold for everything else. -/
theorem run_good_modeOf (m : Manager) (sup : Nat → String × String)
    (fs : FS) (pairs : List (String × String)) (p : String) :
    modeOf (finalizeFS m (renderNames (pairs.map Prod.fst))
      (goodRun m sup pairs ⟨fs, 0, []⟩).fs) p =
      if p = m.config_file then some 0o600
      else keyModeUpd m pairs p (modeOf fs p) := by
  rw [finalizeFS_modeOf]
  by_cases h : p = m.config_file
  · simp [h]
  · simp only [if_neg h]
    exact goodRun_fs_modeOf m sup pairs ⟨fs, 0, []⟩ p

/-- C7: running the tool twice over the same well-formed account list is
idempotent in final state: both runs finish, and the directory mode, the
existence and permission of every file, and the config file's content are
the same after the second run as after the first (only the key material,
which comes from the oracle, may differ). -/
theorem claim_C7 (m : Manager) (cp : String) (sup1 sup2 : Nat → String × String)
    (fs0 : FS) (kvs : List (String × Yaml)) (pairs : List (String × String))
    (hacc : kvs.lookup "accounts" = some (Yaml.list (pairs.map mkAccount))) :
    (runMain m cp sup1 (.ok (Yaml.map kvs)) fs0).1 = .finished ∧
    (runMain m cp sup2 (.ok (Yaml.map kvs))
        (runMain m cp sup1 (.ok (Yaml.map kvs)) fs0).2.1).1 = .finished ∧
    (runMain m cp sup2 (.ok (Yaml.map kvs))
        (runMain m cp sup1 (.ok (Yaml.map kvs)) fs0).2.1).2.1.dirMode =
      (runMain m cp sup1 (.ok (Yaml.map kvs)) fs0).2.1.dirMode ∧
    (∀ p, modeOf (runMain m cp sup2 (.ok (Yaml.map kvs))
          (runMain m cp sup1 (.ok (Yaml.map kvs)) fs0).2.1).2.1 p =
        modeOf (runMain m cp sup1 (.ok (Yaml.map kvs)) fs0).2.1 p) ∧
    (∀ p, ((runMain m cp sup2 (.ok (Yaml.map kvs))
          (runMain m cp sup1 (.ok (Yaml.map kvs)) fs0).2.1).2.1.files p).isSome =
        ((runMain m cp sup1 (.ok (Yaml.map kvs)) fs0).2.1.files p).isSome) ∧
    contentOf (runMain m cp sup2 (.ok (Yaml.map kvs))
        (runMain m cp sup1 (.ok (Yaml.map kvs)) fs0).2.1).2.1 m.config_file =
      contentOf (runMain m cp sup1 (.ok (Yaml.map kvs)) fs0).2.1 m.config_file := by
  have e1 : runMain m cp sup1 (.ok (Yaml.map kvs)) fs0 =
      (.finished,
       finalizeFS m (renderNames (pairs.map Prod.fst))
         (goodRun m sup1 pairs ⟨ensure_ssh_directory fs0, 0, []⟩).fs,
       (goodRun m sup1 pairs ⟨ensure_ssh_directory fs0, 0, []⟩).log ++
         [updatedMsg, urlsMsg] ++ cloneLogs (pairs.map Prod.fst)) := by
    rw [runMain]; exact run_good m cp sup1 (ensure_ssh_directory fs0) kvs pairs hacc
  rw [e1]
  set F1 : FS := finalizeFS m (renderNames (pairs.map Prod.fst))
    (goodRun m sup1 pairs ⟨ensure_ssh_directory fs0, 0, []⟩).fs with hF1
  have e2 : runMain m cp sup2 (.ok (Yaml.map kvs)) F1 =
      (.finished,
       finalizeFS m (renderNames (pairs.map Prod.fst))
         (goodRun m sup2 pairs ⟨ensure_ssh_directory F1, 0, []⟩).fs,
       (goodRun m sup2 pairs ⟨ensure_ssh_directory F1, 0, []⟩).log ++
         [updatedMsg, urlsMsg] ++ cloneLogs (pairs.map Prod.fst)) := by
    rw [runMain]; exact run_good m cp sup2 (ensure_ssh_directory F1) kvs pairs hacc
  rw [e2]
  have hmode1 : ∀ p, modeOf F1 p =
      if p = m.config_file then some 0o600
      else keyModeUpd m pairs p (modeOf fs0 p) := by
    intro p
    rw [hF1, run_good_modeOf]
    by_cases h : p = m.config_file
    · simp [h]
    · simp only [if_neg h]
      congr 1
      exact modeOf_ensure fs0 p
  have hmode2 : ∀ p,
      modeOf (finalizeFS m (renderNames (pairs.map Prod.fst))
        (goodRun m sup2 pairs ⟨ensure_ssh_directory F1, 0, []⟩).fs) p = modeOf F1 p := by
    intro p
    rw [run_good_modeOf]
    by_cases h : p = m.config_file
    · subst h
      rw [hmode1]
      simp
    · simp only [if_neg h]
      rw [modeOf_ensure F1 p, hmode1 p]
      simp only [if_neg h]
      exact keyModeUpd_idem m pairs p _
  refine ⟨rfl, rfl, ?_, ?_, ?_, ?_⟩
  · rw [finalizeFS_dirMode, goodRun_fs_dirMode, finalizeFS_dirMode, goodRun_fs_dirMode]
    rw [ensure_ssh_directory_eq, ensure_ssh_directory_eq]
  · exact hmode2
  · intro p
    rw [← isSome_modeOf, ← isSome_modeOf, hmode2 p]
  · rw [finalizeFS_content_cfg, hF1, finalizeFS_content_cfg]

/-- C7 witness: two concrete runs over the one-account list finish and
agree on the config file's content. -/
theorem claim_C7_witness :
    (runMain mgrW "config.yaml" supW
      (.ok (Yaml.map [("accounts", Yaml.list [mkAccount ("work", "work@example.com")])]))
      fsEmpty).1 = .finished ∧
    (runMain mgrW "config.yaml" supW2
      (.ok (Yaml.map [("accounts", Yaml.list [mkAccount ("work", "work@example.com")])]))
      (runMain mgrW "config.yaml" supW
        (.ok (Yaml.map [("accounts", Yaml.list [mkAccount ("work", "work@example.com")])]))
        fsEmpty).2.1).1 = .finished ∧
    contentOf (runMain mgrW "config.yaml" supW2
      (.ok (Yaml.map [("accounts", Yaml.list [mkAccount ("work", "work@example.com")])]))
      (runMain mgrW "config.yaml" supW
        (.ok (Yaml.map [("accounts", Yaml.list [mkAccount ("work", "work@example.com")])]))
        fsEmpty).2.1).2.1 mgrW.config_file =
    contentOf (runMain mgrW "config.yaml" supW
      (.ok (Yaml.map [("accounts", Yaml.list [mkAccount ("work", "work@example.com")])]))
      fsEmpty).2.1 mgrW.config_file :=
  have h := claim_C7 mgrW "config.yaml" supW supW2 fsEmpty
    [("accounts", Yaml.list [mkAccount ("work", "work@example.com")])]
    [("work", "work@example.com")] (by simp [List.lookup])
  ⟨h.1, h.2.1, h.2.2.2.2.2⟩

theorem mixed_modeOf (m : Manager) (sup : Nat → String × String)
    (A B : List (String × String)) (bad : Yaml) (fs : FS) (q : String) :
    modeOf (goodRun m sup B (skipStep bad (goodRun m sup A ⟨fs, 0, []⟩))).fs q =
      keyModeUpd m B q (keyModeUpd m A q (modeOf fs q)) := by
  rw [goodRun_fs_modeOf]
  congr 1
  exact goodRun_fs_modeOf m sup A ⟨fs, 0, []⟩ q

theorem mixed_files_other (m : Manager) (sup : Nat → String × String)
    (A B : List (String × String)) (bad : Yaml) (fs : FS) (q : String)
    (hA : q ∉ keyPaths m A) (hB : q ∉ keyPaths m B) :
    (goodRun m sup B (skipStep bad (goodRun m sup A ⟨fs, 0, []⟩))).fs.files q =
      fs.files q := by
  rw [goodRun_fs_files_other m sup B _ q hB]
  exact goodRun_fs_files_other m sup A ⟨fs, 0, []⟩ q hA

/-- C5: with one record that has a name but no `email` among otherwise
well-formed records, the run skips only that record (logging the message),
generates key files for every other account, and still reaches the final
configuration rewrite and finishes. -/
theorem claim_C5 (m : Manager) (cp : String) (sup : Nat → String × String)
    (fs : FS) (kvs : List (String × Yaml)) (A B : List (String × String))
    (bkvs : List (String × Yaml)) (bn : String)
    (hn : bkvs.lookup "name" = some (Yaml.str bn))
    (he : bkvs.lookup "email" = none)
    (hacc : kvs.lookup "accounts" =
      some (Yaml.list (A.map mkAccount ++ Yaml.map bkvs :: B.map mkAccount))) :
    (runMain m cp sup (.ok (Yaml.map kvs)) fs).1 = .finished ∧
    (∀ pr : String × String, pr ∈ A ++ B →
      ((runMain m cp sup (.ok (Yaml.map kvs)) fs).2.1.files (privPath m pr.1)).isSome ∧
      ((runMain m cp sup (.ok (Yaml.map kvs)) fs).2.1.files (pubPath m pr.1)).isSome) ∧
    contentOf (runMain m cp sup (.ok (Yaml.map kvs)) fs).2.1 m.config_file =
      some (renderNames (A.map Prod.fst ++ bn :: B.map Prod.fst)) ∧
    skipMsg (Yaml.map bkvs) ∈ (runMain m cp sup (.ok (Yaml.map kvs)) fs).2.2 := by
  have e : runMain m cp sup (.ok (Yaml.map kvs)) fs =
      (.finished,
       finalizeFS m (renderNames (A.map Prod.fst ++ bn :: B.map Prod.fst))
         (goodRun m sup B (skipStep (Yaml.map bkvs)
           (goodRun m sup A ⟨ensure_ssh_directory fs, 0, []⟩))).fs,
       (goodRun m sup B (skipStep (Yaml.map bkvs)
           (goodRun m sup A ⟨ensure_ssh_directory fs, 0, []⟩))).log ++
         [updatedMsg, urlsMsg] ++
         cloneLogs (A.map Prod.fst ++ bn :: B.map Prod.fst)) := by
    rw [runMain]
    exact run_mixed_named m cp sup (ensure_ssh_directory fs) kvs A B bkvs bn hn he hacc
  rw [e]
  refine ⟨rfl, ?_, finalizeFS_content_cfg m _ _, ?_⟩
  · intro pr hpr
    have main : ∀ q, q ∈ keyPaths m A ∨ q ∈ keyPaths m B →
        ((finalizeFS m (renderNames (A.map Prod.fst ++ bn :: B.map Prod.fst))
          (goodRun m sup B (skipStep (Yaml.map bkvs)
            (goodRun m sup A ⟨ensure_ssh_directory fs, 0, []⟩))).fs).files q).isSome := by
      intro q hq
      rw [← isSome_modeOf, finalizeFS_modeOf]
      by_cases h : q = m.config_file
      · simp [h]
      · simp only [if_neg h]
        rw [mixed_modeOf]
        rw [keyModeUpd_isSome, keyModeUpd_isSome]
        rcases hq with hq | hq <;> simp [hq]
    rcases List.mem_append.mp hpr with hA | hB
    · exact ⟨main _ (Or.inl (mem_keyPaths_of_mem m A pr hA).1),
        main _ (Or.inl (mem_keyPaths_of_mem m A pr hA).2)⟩
    · exact ⟨main _ (Or.inr (mem_keyPaths_of_mem m B pr hB).1),
        main _ (Or.inr (mem_keyPaths_of_mem m B pr hB).2)⟩
  · rw [goodRun_log]
    simp [skipStep, goodRun_log, List.mem_append]

/-- C5 witness: concrete list `work`, then a record with only a name,
then `personal`: the run finishes, `work`'s private key file exists, and
the skip message was printed. -/
theorem claim_C5_witness :
    (runMain mgrW "config.yaml" supW
      (.ok (Yaml.map [("accounts", Yaml.list
        [mkAccount ("work", "work@example.com"),
         Yaml.map [("name", Yaml.str "bad")],
         mkAccount ("personal", "personal@example.com")])])) fsEmpty).1 =
      .finished ∧
    ((runMain mgrW "config.yaml" supW
      (.ok (Yaml.map [("accounts", Yaml.list
        [mkAccount ("work", "work@example.com"),
         Yaml.map [("name", Yaml.str "bad")],
         mkAccount ("personal", "personal@example.com")])])) fsEmpty).2.1.files
      (privPath mgrW "work")).isSome ∧
    skipMsg (Yaml.map [("name", Yaml.str "bad")]) ∈
      (runMain mgrW "config.yaml" supW
        (.ok (Yaml.map [("accounts", Yaml.list
          [mkAccount ("work", "work@example.com"),
           Yaml.map [("name", Yaml.str "bad")],
           mkAccount ("personal", "personal@example.com")])])) fsEmpty).2.2 :=
  have h := claim_C5 mgrW "config.yaml" supW fsEmpty
    [("accounts", Yaml.list
      [mkAccount ("work", "work@example.com"),
       Yaml.map [("name", Yaml.str "bad")],
       mkAccount ("personal", "personal@example.com")])]
    [("work", "work@example.com")] [("personal", "personal@example.com")]
    [("name", Yaml.str "bad")] "bad" (by simp [List.lookup]) (by simp [List.lookup])
    (by simp [List.lookup])
  ⟨h.1, (h.2.1 ("work", "work@example.com") (by simp)).1, h.2.2.2⟩

/-- C8: the final rewrite and the clone-URL printing iterate over the full
account list: a record with a name but no `email` is skipped by key
generation (its private key file is never created), yet the written config
contains a stanza for it and its clone URL is printed. -/
theorem claim_C8 (m : Manager) (cp : String) (sup : Nat → String × String)
    (fs : FS) (kvs : List (String × Yaml)) (A B : List (String × String))
    (bkvs : List (String × Yaml)) (bn : String)
    (hn : bkvs.lookup "name" = some (Yaml.str bn))
    (he : bkvs.lookup "email" = none)
    (hacc : kvs.lookup "accounts" =
      some (Yaml.list (A.map mkAccount ++ Yaml.map bkvs :: B.map mkAccount)))
    (hA : privPath m bn ∉ keyPaths m A) (hB : privPath m bn ∉ keyPaths m B)
    (hc : privPath m bn ≠ m.config_file)
    (h0 : fs.files (privPath m bn) = none) :
    (runMain m cp sup (.ok (Yaml.map kvs)) fs).1 = .finished ∧
    contentOf (runMain m cp sup (.ok (Yaml.map kvs)) fs).2.1 m.config_file =
      some (renderNames (A.map Prod.fst) ++ hostEntry bn ++
        renderNames (B.map Prod.fst)) ∧
    (runMain m cp sup (.ok (Yaml.map kvs)) fs).2.1.files (privPath m bn) = none ∧
    cloneMsg bn ∈ (runMain m cp sup (.ok (Yaml.map kvs)) fs).2.2 ∧
    skipMsg (Yaml.map bkvs) ∈ (runMain m cp sup (.ok (Yaml.map kvs)) fs).2.2 := by
  have e : runMain m cp sup (.ok (Yaml.map kvs)) fs =
      (.finished,
       finalizeFS m (renderNames (A.map Prod.fst ++ bn :: B.map Prod.fst))
         (goodRun m sup B (skipStep (Yaml.map bkvs)
           (goodRun m sup A ⟨ensure_ssh_directory fs, 0, []⟩))).fs,
       (goodRun m sup B (skipStep (Yaml.map bkvs)
           (goodRun m sup A ⟨ensure_ssh_directory fs, 0, []⟩))).log ++
         [updatedMsg, urlsMsg] ++
         cloneLogs (A.map Prod.fst ++ bn :: B.map Prod.fst)) := by
    rw [runMain]
    exact run_mixed_named m cp sup (ensure_ssh_directory fs) kvs A B bkvs bn hn he hacc
  rw [e]
  refine ⟨rfl, ?_, ?_, ?_, ?_⟩
  · rw [finalizeFS_content_cfg, renderNames_append, renderNames_cons,
      String.append_assoc]
  · rw [finalizeFS_files_other m _ _ _ hc, mixed_files_other m sup A B _ _ _ hA hB,
      files_ensure]
    exact h0
  · exact List.mem_append_right _ (List.mem_map_of_mem cloneMsg (by simp))
  · rw [goodRun_log]
    simp [skipStep, goodRun_log, List.mem_append]

/-- C8 witness: concrete list with the email-less record `bad` between
`work` and `personal`: the run finishes, `bad`'s private key file does not
exist, yet its clone URL was printed. -/
theorem claim_C8_witness :
    (runMain mgrW "config.yaml" supW
      (.ok (Yaml.map [("accounts", Yaml.list
        [mkAccount ("work", "work@example.com"),
         Yaml.map [("name", Yaml.str "bad")],
         mkAccount ("personal", "personal@example.com")])])) fsEmpty).1 =
      .finished ∧
    (runMain mgrW "config.yaml" supW
      (.ok (Yaml.map [("accounts", Yaml.list
        [mkAccount ("work", "work@example.com"),
         Yaml.map [("name", Yaml.str "bad")],
         mkAccount ("personal", "personal@example.com")])])) fsEmpty).2.1.files
      (privPath mgrW "bad") = none ∧
    cloneMsg "bad" ∈
      (runMain mgrW "config.yaml" supW
        (.ok (Yaml.map [("accounts", Yaml.list
          [mkAccount ("work", "work@example.com"),
           Yaml.map [("name", Yaml.str "bad")],
           mkAccount ("personal", "personal@example.com")])])) fsEmpty).2.2 :=
  have h := claim_C8 mgrW "config.yaml" supW fsEmpty
    [("accounts", Yaml.list
      [mkAccount ("work", "work@example.com"),
       Yaml.map [("name", Yaml.str "bad")],
       mkAccount ("personal", "personal@example.com")])]
    [("work", "work@example.com")] [("personal", "personal@example.com")]
    [("name", Yaml.str "bad")] "bad" (by simp [List.lookup]) (by simp [List.lookup])
    (by simp [List.lookup]) (by decide) (by decide) (by decide) rfl
  ⟨h.1, h.2.2.1, h.2.2.2.1⟩

/-- C9: when some record lacks the `name` field (and every record is a
mapping), the run is terminated by an uncaught `KeyError` raised during the
final configuration rewrite, not by the controlled `sys.exit(1)`: the
record was skipped during key generation (the skip message was printed),
and the config file is left untouched. -/
theorem claim_C9 (m : Manager) (cp : String) (sup : Nat → String × String)
    (fs : FS) (kvs : List (String × Yaml)) (A B : List (String × String))
    (bkvs : List (String × Yaml))
    (hn : bkvs.lookup "name" = none)
    (hacc : kvs.lookup "accounts" =
      some (Yaml.list (A.map mkAccount ++ Yaml.map bkvs :: B.map mkAccount)))
    (hA : m.config_file ∉ keyPaths m A) (hB : m.config_file ∉ keyPaths m B) :
    (runMain m cp sup (.ok (Yaml.map kvs)) fs).1 = .raised (.keyError "name") ∧
    (runMain m cp sup (.ok (Yaml.map kvs)) fs).1 ≠ .exited 1 ∧
    skipMsg (Yaml.map bkvs) ∈ (runMain m cp sup (.ok (Yaml.map kvs)) fs).2.2 ∧
    (runMain m cp sup (.ok (Yaml.map kvs)) fs).2.1.files m.config_file =
      fs.files m.config_file := by
  have e : runMain m cp sup (.ok (Yaml.map kvs)) fs =
      (.raised (.keyError "name"),
       (goodRun m sup B (skipStep (Yaml.map bkvs)
           (goodRun m sup A ⟨ensure_ssh_directory fs, 0, []⟩))).fs,
       (goodRun m sup B (skipStep (Yaml.map bkvs)
           (goodRun m sup A ⟨ensure_ssh_directory fs, 0, []⟩))).log) := by
    rw [runMain]
    exact run_mixed_noname m cp sup (ensure_ssh_directory fs) kvs A B bkvs hn hacc
  rw [e]
  refine ⟨rfl, by simp, ?_, ?_⟩
  · rw [goodRun_log]
    simp [skipStep, goodRun_log, List.mem_append]
  · rw [mixed_files_other m sup A B _ _ _ hA hB, files_ensure]

/-- C9 witness: concrete list `work` followed by a record with only an
email: uncaught `KeyError` and no config file written. -/
theorem claim_C9_witness :
    (runMain mgrW "config.yaml" supW
      (.ok (Yaml.map [("accounts", Yaml.list
        [mkAccount ("work", "work@example.com"),
         Yaml.map [("email", Yaml.str "bad@example.com")]])])) fsEmpty).1 =
      .raised (.keyError "name") ∧
    (runMain mgrW "config.yaml" supW
      (.ok (Yaml.map [("accounts", Yaml.list
        [mkAccount ("work", "work@example.com"),
         Yaml.map [("email", Yaml.str "bad@example.com")]])])) fsEmpty).2.1.files
      mgrW.config_file = fsEmpty.files mgrW.config_file :=
  have h := claim_C9 mgrW "config.yaml" supW fsEmpty
    [("accounts", Yaml.list
      [mkAccount ("work", "work@example.com"),
       Yaml.map [("email", Yaml.str "bad@example.com")]])]
    [("work", "work@example.com")] []
    [("email", Yaml.str "bad@example.com")] (by simp [List.lookup])
    (by simp [List.lookup]) (by decide) (by decide)
  ⟨h.1, h.2.2.2⟩
